import Mathlib

/-!
# Verification of the OpenCPN ⇄ NMEA2000 ⇄ SeaTalk-1 autopilot bridge

Shallow embedding of the protocol core of `autopilotcontroller.ino`
(ESP32 bridge between an NMEA-2000 CAN bus and a Raymarine ST4000 on
SeaTalk-1), together with proofs about the embedded functions.

Modelling conventions:
* machine integers (`uint8_t`, `uint16_t`, `uint32_t`, `uint64_t`) are
  modelled as `ℕ`; reductions modulo `2^w` are written explicitly where the
  source relies on the width of the type;
* `float` arithmetic is modelled as exact arithmetic on `ℚ`, reading
  decimal literals (`0.0001f`, `40.95f`, …) as exact rationals; the
  constant `(float)M_PI` is modelled by `qpi`, the exact rational value of
  the IEEE-754 binary32 number nearest to π (13176795 / 2^22);
* byte buffers are Lean lists of `ℕ`; the 8-byte CAN data array of a frame
  is a list whose entries beyond the DLC are the actual array contents
  (reads use `List.getD` with default 0, matching a zero-initialised
  array);
* functions that only transmit are modelled as functions returning the
  list of datagrams/messages they would transmit.
-/

set_option maxRecDepth 40000

namespace Autopilot

/-! ## Bit-manipulation helper lemmas -/

theorem and31 (x : ℕ) : x &&& 31 = x % 32 := by
  have h := Nat.and_pow_two_sub_one_eq_mod x 5
  norm_num at h
  exact h

theorem and7 (x : ℕ) : x &&& 7 = x % 8 := by
  have h := Nat.and_pow_two_sub_one_eq_mod x 3
  norm_num at h
  exact h

theorem and255 (x : ℕ) : x &&& 255 = x % 256 := by
  have h := Nat.and_pow_two_sub_one_eq_mod x 8
  norm_num at h
  exact h

theorem and15 (x : ℕ) : x &&& 15 = x % 16 := by
  have h := Nat.and_pow_two_sub_one_eq_mod x 4
  norm_num at h
  exact h

theorem and3 (x : ℕ) : x &&& 3 = x % 4 := by
  have h := Nat.and_pow_two_sub_one_eq_mod x 2
  norm_num at h
  exact h

theorem and1 (x : ℕ) : x &&& 1 = x % 2 := Nat.and_one_is_mod x

/-- Folding a disjoint low part into a value whose low `n` bits are clear
turns bitwise-or into addition. -/
theorem lor_add (a b n : ℕ) (ha : a % 2 ^ n = 0) (hb : b < 2 ^ n) :
    a ||| b = a + b := by
  obtain ⟨c, rfl⟩ : ∃ c, a = 2 ^ n * c :=
    ⟨a / 2 ^ n, by rw [Nat.mul_div_cancel' (Nat.dvd_of_mod_eq_zero ha)]⟩
  exact (Nat.mul_add_lt_is_or hb c).symm

theorem shiftRight_div (x n : ℕ) : x >>> n = x / 2 ^ n :=
  Nat.shiftRight_eq_div_pow x n

theorem shiftLeft_mul (x n : ℕ) : x <<< n = x * 2 ^ n :=
  Nat.shiftLeft_eq x n

theorem lor_add8 (a b : ℕ) (ha : a % 256 = 0) (hb : b < 256) :
    a ||| b = a + b :=
  lor_add a b 8 (by norm_num; exact ha) (by norm_num; exact hb)

theorem lor_add16 (a b : ℕ) (ha : a % 65536 = 0) (hb : b < 65536) :
    a ||| b = a + b :=
  lor_add a b 16 (by norm_num; exact ha) (by norm_num; exact hb)

theorem lor_add24 (a b : ℕ) (ha : a % 16777216 = 0) (hb : b < 16777216) :
    a ||| b = a + b :=
  lor_add a b 24 (by norm_num; exact ha) (by norm_num; exact hb)

theorem lor_add26 (a b : ℕ) (ha : a % 67108864 = 0) (hb : b < 67108864) :
    a ||| b = a + b :=
  lor_add a b 26 (by norm_num; exact ha) (by norm_num; exact hb)

theorem shr4 (x : ℕ) : x >>> 4 = x / 16 := by rw [shiftRight_div]; norm_num

theorem shr5 (x : ℕ) : x >>> 5 = x / 32 := by rw [shiftRight_div]; norm_num

theorem shr8 (x : ℕ) : x >>> 8 = x / 256 := by rw [shiftRight_div]; norm_num

theorem shr16 (x : ℕ) : x >>> 16 = x / 65536 := by
  rw [shiftRight_div]; norm_num

theorem shr24 (x : ℕ) : x >>> 24 = x / 16777216 := by
  rw [shiftRight_div]; norm_num

theorem shr26 (x : ℕ) : x >>> 26 = x / 67108864 := by
  rw [shiftRight_div]; norm_num

theorem shl4 (x : ℕ) : x <<< 4 = x * 16 := by rw [shiftLeft_mul]; norm_num

theorem shl5 (x : ℕ) : x <<< 5 = x * 32 := by rw [shiftLeft_mul]; norm_num

theorem shl8 (x : ℕ) : x <<< 8 = x * 256 := by rw [shiftLeft_mul]; norm_num

theorem shl16 (x : ℕ) : x <<< 16 = x * 65536 := by
  rw [shiftLeft_mul]; norm_num

theorem shl24 (x : ℕ) : x <<< 24 = x * 16777216 := by
  rw [shiftLeft_mul]; norm_num

theorem shl26 (x : ℕ) : x <<< 26 = x * 67108864 := by
  rw [shiftLeft_mul]; norm_num

/-! ## N2K identifier codec (`n2k_id`, `extractPGN`)

Source: `autopilotcontroller.ino`, lines 118–131. -/

/-- `n2k_id(prio, pgn, src)`: builds the 29-bit extended CAN identifier.
The PDU-specific byte is `0xFF` when the PGN's format byte is < 240 (PDU1)
and the PGN's low byte otherwise (PDU2). -/
def n2k_id (prio pgn src : ℕ) : ℕ :=
  let PF := (pgn >>> 8) &&& 0xFF
  let PDU_SPEC := if PF < 240 then 0xFF else pgn &&& 0xFF
  let DP := (pgn >>> 16) &&& 0x01
  ((prio &&& 7) <<< 26) ||| (DP <<< 24) ||| (PF <<< 16) ||| (PDU_SPEC <<< 8) ||| src

/-- `extractPGN`: recovers the PGN from a received 29-bit identifier.
For PDU1 identifiers (format byte < 240) the PDU-specific byte is a
destination address and is not part of the PGN. -/
def extractPGN (id : ℕ) : ℕ :=
  let PF := (id >>> 16) &&& 0xFF
  let DP := (id >>> 24) &&& 0x01
  let PDU_SPEC := (id >>> 8) &&& 0xFF
  if PF < 240 then (DP <<< 16) ||| (PF <<< 8)
  else (DP <<< 16) ||| (PF <<< 8) ||| PDU_SPEC

/-- Source-address decode used by `loop()` on a received frame:
`(uint8_t)(m.identifier & 0xFF)`. -/
def decode_src (id : ℕ) : ℕ := id &&& 0xFF

/-- Modelled from the spec: `decodeIdentifier` (§4.1) reports the priority
field of the identifier; the sketch itself never decodes priority. -/
def decode_prio (id : ℕ) : ℕ := (id >>> 26) &&& 0x07

/-- Modelled from the spec: `decodeIdentifier` (§4.1) reports the
destination of a PDU1 identifier from its PDU-specific byte and reports
broadcast (255) for PDU2 identifiers. -/
def decode_dest (id : ℕ) : ℕ :=
  if (id >>> 16) &&& 0xFF < 240 then (id >>> 8) &&& 0xFF else 255

/-- Five disjoint fields packed with `|||` add up. -/
theorem pack5 (a b c d e : ℕ) (hb : b < 4) (hc : c < 256) (hd : d < 256)
    (he : e < 256) :
    (((a * 67108864 ||| b * 16777216) ||| c * 65536) ||| d * 256) ||| e
      = a * 67108864 + b * 16777216 + c * 65536 + d * 256 + e := by
  have h1 : a * 67108864 ||| b * 16777216 = a * 67108864 + b * 16777216 :=
    lor_add26 _ _ (by omega) (by omega)
  have h2 : a * 67108864 + b * 16777216 ||| c * 65536 =
      a * 67108864 + b * 16777216 + c * 65536 :=
    lor_add24 _ _ (by omega) (by omega)
  have h3 : a * 67108864 + b * 16777216 + c * 65536 ||| d * 256 =
      a * 67108864 + b * 16777216 + c * 65536 + d * 256 :=
    lor_add16 _ _ (by omega) (by omega)
  have h4 : a * 67108864 + b * 16777216 + c * 65536 + d * 256 ||| e =
      a * 67108864 + b * 16777216 + c * 65536 + d * 256 + e :=
    lor_add8 _ _ (by omega) (by omega)
  rw [h1, h2, h3, h4]

/-- Arithmetic characterisation of `n2k_id`. -/
theorem n2k_id_arith (p g s : ℕ) (hs : s < 256) :
    n2k_id p g s =
      (p % 8) * 67108864 + (g / 65536 % 2) * 16777216 +
        (g / 256 % 256) * 65536 +
        (if g / 256 % 256 < 240 then 255 else g % 256) * 256 + s := by
  have hd : (if g / 256 % 256 < 240 then 255 else g % 256) < 256 := by
    split
    · omega
    · omega
  calc n2k_id p g s
      = (((((p % 8) * 67108864) ||| ((g / 65536 % 2) * 16777216)) |||
          ((g / 256 % 256) * 65536)) |||
            ((if g / 256 % 256 < 240 then 255 else g % 256) * 256)) ||| s := by
        simp only [n2k_id, shr8, shr16, shl8, shl16, shl24, shl26,
          and7, and255, and1]
    _ = _ := pack5 _ _ _ _ _ (by omega) (by omega) hd hs

theorem decode_prio_eq (p g s : ℕ) (hs : s < 256) :
    decode_prio (n2k_id p g s) = p % 8 := by
  simp only [decode_prio, shr26, and7, n2k_id_arith p g s hs]
  split <;> omega

theorem decode_src_eq (p g s : ℕ) (hs : s < 256) :
    decode_src (n2k_id p g s) = s := by
  simp only [decode_src, and255, n2k_id_arith p g s hs]
  split <;> omega

theorem n2k_id_PF (p g s : ℕ) (hs : s < 256) :
    n2k_id p g s / 65536 % 256 = g / 256 % 256 := by
  rw [n2k_id_arith p g s hs]
  split <;> omega

theorem n2k_id_DP (p g s : ℕ) (hs : s < 256) :
    n2k_id p g s / 16777216 % 2 = g / 65536 % 2 := by
  rw [n2k_id_arith p g s hs]
  split <;> omega

theorem n2k_id_PS (p g s : ℕ) (hs : s < 256) :
    n2k_id p g s / 256 % 256 =
      if g / 256 % 256 < 240 then 255 else g % 256 := by
  rw [n2k_id_arith p g s hs]
  by_cases h : g / 256 % 256 < 240 <;> simp only [h, if_true, if_false] <;>
    omega

theorem extractPGN_eq (p g s : ℕ) (hs : s < 256) (hg : g < 131072) :
    extractPGN (n2k_id p g s) =
      if g / 256 % 256 < 240 then g - g % 256 else g := by
  simp only [extractPGN, shr8, shr16, shr24, and255, and1,
    n2k_id_PF p g s hs, n2k_id_DP p g s hs, n2k_id_PS p g s hs]
  by_cases h : g / 256 % 256 < 240 <;> simp only [h, if_true, if_false]
  · rw [shl8, shl16,
      lor_add16 (g / 65536 % 2 * 65536) (g / 256 % 256 * 256)
        (by omega) (by omega)]
    omega
  · rw [shl8, shl16,
      lor_add16 (g / 65536 % 2 * 65536) (g / 256 % 256 * 256)
        (by omega) (by omega),
      lor_add8 (g / 65536 % 2 * 65536 + g / 256 % 256 * 256) (g % 256)
        (by omega) (by omega)]
    omega

theorem decode_dest_eq (p g s : ℕ) (hs : s < 256) :
    decode_dest (n2k_id p g s) = 255 := by
  simp only [decode_dest, shr8, shr16, and255,
    n2k_id_PF p g s hs, n2k_id_PS p g s hs]
  by_cases h : g / 256 % 256 < 240 <;> simp [h]

/-- C2: for every valid priority (0–7), 17-bit PGN and source address,
decoding the identifier built by `n2k_id` reproduces the priority and the
source address; the PGN is reproduced exactly for PDU2 identifiers
(format byte ≥ 240) and with its low byte zeroed for PDU1 identifiers;
and the reported destination is broadcast (255) — `n2k_id` always encodes
the PDU1 PDU-specific byte as 0xFF, and PDU2 identifiers are reported as
broadcast by the PDU1/PDU2 rule. -/
theorem C2_identifier_roundtrip (p g s : ℕ) (hp : p ≤ 7) (hg : g < 131072)
    (hs : s < 256) :
    decode_prio (n2k_id p g s) = p ∧
    decode_src (n2k_id p g s) = s ∧
    extractPGN (n2k_id p g s) =
      (if g / 256 % 256 < 240 then g - g % 256 else g) ∧
    decode_dest (n2k_id p g s) = 255 := by
  refine ⟨?_, decode_src_eq p g s hs, extractPGN_eq p g s hs hg,
    decode_dest_eq p g s hs⟩
  rw [decode_prio_eq p g s hs]
  omega

theorem C2_identifier_roundtrip_witness :
    (3 : ℕ) ≤ 7 ∧ (129283 : ℕ) < 131072 ∧ (33 : ℕ) < 256 ∧
    (decode_prio (n2k_id 3 129283 33) = 3 ∧
      decode_src (n2k_id 3 129283 33) = 33 ∧
      extractPGN (n2k_id 3 129283 33) =
        (if 129283 / 256 % 256 < 240 then 129283 - 129283 % 256
         else 129283) ∧
      decode_dest (n2k_id 3 129283 33) = 255) :=
  ⟨by norm_num, by norm_num, by norm_num,
    C2_identifier_roundtrip 3 129283 33 (by norm_num) (by norm_num)
      (by norm_num)⟩

/-- C9 counterexample: the claim says a priority input greater than 7 is
clamped so that the encoded priority field equals 7; but
`n2k_id(8, 60928, 33)` has priority field `8 & 7 = 0`, not 7. -/
theorem C9_priority_clamp_cex :
    decode_prio (n2k_id 8 60928 33) = 0 ∧
      decode_prio (n2k_id 8 60928 33) ≠ 7 := by
  constructor <;> decide

/-- C9 (amended): `n2k_id` masks the priority with `& 7` (priority mod 8)
rather than clamping it to 7; a priority input greater than 7 encodes as
its value modulo 8. -/
theorem C9_priority_masked (p g s : ℕ) (hs : s < 256) :
    decode_prio (n2k_id p g s) = p % 8 :=
  decode_prio_eq p g s hs

theorem C9_priority_masked_witness :
    (33 : ℕ) < 256 ∧ decode_prio (n2k_id 8 60928 33) = 8 % 8 :=
  ⟨by norm_num, C9_priority_masked 8 60928 33 (by norm_num)⟩

/-! ## Rational model of the float helpers

`clampf` is from the source; `roundq`, `truncq`, `fmodq` model the C
library functions `roundf` (round half away from zero), truncation and
`fmodf`; `qpi` is the exact rational value of the binary32 constant
`(float)M_PI`. -/

/-- `clampf(v, a, b)` from the source: `v<a?a:(v>b?b:v)`. -/
def clampf (v a b : ℚ) : ℚ := if v < a then a else if v > b then b else v

/-- `roundf`: rounds to the nearest integer, halves away from zero. -/
def roundq (q : ℚ) : ℤ := if q < 0 then -⌊-q + 1 / 2⌋ else ⌊q + 1 / 2⌋

/-- C float-to-integer truncation (toward zero). -/
def truncq (q : ℚ) : ℤ := if q < 0 then -⌊-q⌋ else ⌊q⌋

/-- `fmodf(x, y) = x - y * trunc(x / y)`. -/
def fmodq (x y : ℚ) : ℚ := x - y * truncq (x / y)

/-- The exact value of the IEEE-754 binary32 constant `(float)M_PI`. -/
def qpi : ℚ := 13176795 / 4194304

/-- The `while (deg < 0) deg += 360.0f;` loop. -/
def normUp (q : ℚ) : ℚ :=
  if q < 0 then normUp (q + 360) else q
termination_by (⌈-q / 360⌉).toNat
decreasing_by
  have h1 : (0 : ℚ) < -q / 360 := by
    apply div_pos
    · linarith
    · norm_num
  have h2 : ⌈-(q + 360) / 360⌉ = ⌈-q / 360⌉ - 1 := by
    rw [show -(q + 360) / 360 = -q / 360 - 1 by ring]
    exact Int.ceil_sub_one _
  have h3 : 0 < ⌈-q / 360⌉ := Int.ceil_pos.mpr h1
  rw [h2]
  omega

/-- The `while (deg >= 360.0f) deg -= 360.0f;` loop. -/
def normDown (q : ℚ) : ℚ :=
  if q ≥ 360 then normDown (q - 360) else q
termination_by (⌊q / 360⌋).toNat
decreasing_by
  have h1 : (1 : ℚ) ≤ q / 360 := by
    rw [le_div_iff₀ (by norm_num : (0:ℚ) < 360)]
    linarith
  have h2 : ⌊(q - 360) / 360⌋ = ⌊q / 360⌋ - 1 := by
    rw [show (q - 360) / 360 = q / 360 - 1 by ring]
    exact Int.floor_sub_one _
  have h3 : 1 ≤ ⌊q / 360⌋ := by
    rw [Int.le_floor]
    exact_mod_cast h1
  rw [h2]
  omega

/-- The two normalisation loops in sequence, as used by the source for
headings (`while (h<0) h+=360; while (h>=360) h-=360;`). -/
def norm360 (q : ℚ) : ℚ := normDown (normUp q)

theorem normUp_nonneg (q : ℚ) : 0 ≤ normUp q := by
  induction q using normUp.induct with
  | case1 q h ih => rw [normUp, if_pos h]; exact ih
  | case2 q h => rw [normUp, if_neg h]; linarith

theorem normDown_nonneg (q : ℚ) (h0 : 0 ≤ q) : 0 ≤ normDown q := by
  induction q using normDown.induct with
  | case1 q h ih =>
    rw [normDown, if_pos h]
    exact ih (by linarith)
  | case2 q h => rw [normDown, if_neg h]; exact h0

theorem normDown_lt (q : ℚ) : normDown q < 360 := by
  induction q using normDown.induct with
  | case1 q h ih => rw [normDown, if_pos h]; exact ih
  | case2 q h => rw [normDown, if_neg h]; linarith

theorem norm360_nonneg (q : ℚ) : 0 ≤ norm360 q :=
  normDown_nonneg _ (normUp_nonneg q)

theorem norm360_lt (q : ℚ) : norm360 q < 360 :=
  normDown_lt _

/-! ## SeaTalk navigation datagram `st_send_nav_0x85`

Source: `autopilotcontroller.ino`, lines 331–363.  The function is
modelled as returning the 9 bytes it writes to the SeaTalk UART. -/

/-- The 9 bytes of the SeaTalk `0x85` navigation datagram built by
`st_send_nav_0x85(xteNm, bearingMagDeg, distNm, enterTrack)`. -/
def st_send_nav_bytes (xteNm bearingMagDeg distNm : ℚ)
    (enterTrack : Bool) : List ℕ :=
  let xabs := |xteNm|
  let X : ℕ := (roundq (clampf xabs 0 (4095 / 100) * 100)).toNat
  let X_hi := (X >>> 8) &&& 0x0F
  let X_lo := X &&& 0xFF
  let brg := fmodq (bearingMagDeg + 360) 360
  let quad : ℕ := (⌊brg / 90⌋).toNat &&& 0x03
  let U := quad
  let rem := brg - (quad : ℚ) * 90
  let WV : ℕ := (roundq (rem * 2)).toNat
  let V := WV &&& 0x0F
  let W := (WV >>> 4) &&& 0x0F
  let lt10 := distNm < 10
  let D : ℕ :=
    (roundq (clampf distNm 0 (819 / 2) * (if lt10 then 100 else 10))).toNat
  let Z_hi := (D >>> 8) &&& 0x0F
  let ZZ := (D >>> 4) &&& 0xFF
  let Y0 := D &&& 0x0F
  let Y1 := if lt10 then Y0 ||| 0x01 else Y0
  let Y := if xteNm < 0 then Y1 ||| 0x04 else Y1
  let F : ℕ := if enterTrack then 0x07 else 0x05
  [0x85, 0x60 ||| X_hi, X_lo, (V <<< 4) ||| U, (Z_hi <<< 4) ||| W, ZZ,
    (Y <<< 4) ||| F, 0x00, (Y <<< 4) ||| F]

/-- Inverse arithmetic for the cross-track-error field of the `0x85`
datagram: magnitude `XXX/100` nm from the low nibble of byte 1 and
byte 2. -/
def nav_xte_nm (p : List ℕ) : ℚ :=
  ((((p.getD 1 0 &&& 0x0F) <<< 8) ||| p.getD 2 0 : ℕ) : ℚ) / 100

/-- Inverse arithmetic for the steer-right flag (bit 2 of the flags
nibble of byte 6). -/
def nav_steer_right (p : List ℕ) : Prop :=
  ((p.getD 6 0 >>> 4) &&& 0x04) ≠ 0

/-- Inverse arithmetic for the bearing: 90°-quadrant code plus
half-degree remainder. -/
def nav_bearing_deg (p : List ℕ) : ℚ :=
  ((p.getD 3 0 &&& 0x03 : ℕ) : ℚ) * 90 +
    ((((p.getD 4 0 &&& 0x0F) <<< 4) ||| (p.getD 3 0 >>> 4) : ℕ) : ℚ) / 2

/-- Inverse arithmetic for the distance: 12-bit field scaled by 0.01 nm
or 0.1 nm per the scale flag (bit 0 of the flags nibble of byte 6). -/
def nav_dist_nm (p : List ℕ) : ℚ :=
  let D := (p.getD 5 0 <<< 4) ||| ((p.getD 6 0 >>> 4) &&& 0x0F)
  if (p.getD 6 0 >>> 4) &&& 0x01 ≠ 0 then (D : ℚ) / 100 else (D : ℚ) / 10

/-- Inverse arithmetic for the track-engaged flag: the trailing flag
nibble is 0x07 when track is engaged and 0x05 otherwise (bit 1). -/
def nav_track (p : List ℕ) : Prop := (p.getD 6 0 &&& 0x02) ≠ 0

/-- Evaluation of the encoder on the spec's fixture (distance 4.30 nm). -/
theorem nav_bytes_eval_430 :
    st_send_nav_bytes (-1 / 4) (367 / 2) (43 / 10) true =
      [0x85, 0x60, 0x19, 0x72, 0x10, 0x1A, 0xF7, 0x00, 0xF7] := by
  have habs : |(-1 / 4 : ℚ)| = 1 / 4 := by
    rw [abs_of_nonpos (by norm_num : (-1 / 4 : ℚ) ≤ 0)]
    norm_num
  simp only [st_send_nav_bytes, habs]
  norm_num [roundq, clampf, fmodq, truncq]
  rw [show Int.toNat 2 &&& 3 = 2 by decide]
  norm_num
  decide

/-- Evaluation of the encoder on the same fixture with distance 4.31 nm:
the bytes are identical to those for 4.30 nm. -/
theorem nav_bytes_eval_431 :
    st_send_nav_bytes (-1 / 4) (367 / 2) (431 / 100) true =
      [0x85, 0x60, 0x19, 0x72, 0x10, 0x1A, 0xF7, 0x00, 0xF7] := by
  have habs : |(-1 / 4 : ℚ)| = 1 / 4 := by
    rw [abs_of_nonpos (by norm_num : (-1 / 4 : ℚ) ≤ 0)]
    norm_num
  simp only [st_send_nav_bytes, habs]
  norm_num [roundq, clampf, fmodq, truncq]
  rw [show Int.toNat 2 &&& 3 = 2 by decide]
  norm_num
  decide

/-- C8 counterexample: with cross-track-error −0.25 nm, bearing 183.5°
and track engaged, the encoder produces the *same* 9 bytes for distance
4.30 nm and for distance 4.31 nm — the scale flag and the steer-right
flag are or-ed into the low nibble of the scaled distance (430 = 0x1AE),
so no inverse arithmetic can reproduce 4.30 nm from the bytes. -/
theorem C8_nav_fixture_cex :
    st_send_nav_bytes (-1 / 4) (367 / 2) (43 / 10) true =
      st_send_nav_bytes (-1 / 4) (367 / 2) (431 / 100) true ∧
    (43 / 10 : ℚ) ≠ 431 / 100 := by
  constructor
  · rw [nav_bytes_eval_430, nav_bytes_eval_431]
  · norm_num

/-- C8 (amended): on the fixture (xte = −0.25 nm, bearing = 183.5°,
distance = 4.30 nm, track engaged) the encoder produces the 9-byte
sequence `85 60 19 72 10 1A F7 00 F7`; the decoded fields reproduce
0.25 nm with the steer-right flag set, 183.5°, and a set track-engaged
flag, but the distance decodes to 4.31 nm, not 4.30 nm, because the
encoder ors the scale and steer-right flag bits into the low nibble of
the scaled distance. -/
theorem C8_nav_fixture :
    st_send_nav_bytes (-1 / 4) (367 / 2) (43 / 10) true =
      [0x85, 0x60, 0x19, 0x72, 0x10, 0x1A, 0xF7, 0x00, 0xF7] ∧
    (st_send_nav_bytes (-1 / 4) (367 / 2) (43 / 10) true).length = 9 ∧
    nav_xte_nm (st_send_nav_bytes (-1 / 4) (367 / 2) (43 / 10) true) =
      1 / 4 ∧
    nav_steer_right (st_send_nav_bytes (-1 / 4) (367 / 2) (43 / 10) true) ∧
    nav_bearing_deg (st_send_nav_bytes (-1 / 4) (367 / 2) (43 / 10) true) =
      367 / 2 ∧
    nav_track (st_send_nav_bytes (-1 / 4) (367 / 2) (43 / 10) true) ∧
    nav_dist_nm (st_send_nav_bytes (-1 / 4) (367 / 2) (43 / 10) true) =
      431 / 100 := by
  rw [nav_bytes_eval_430]
  refine ⟨rfl, rfl, ?_, ?_, ?_, ?_, ?_⟩
  · simp [nav_xte_nm]
    rw [show ((96 &&& 15) <<< 8 ||| 25 : ℕ) = 25 by decide]
    norm_num
  · unfold nav_steer_right
    decide
  · simp [nav_bearing_deg]
    rw [show (114 &&& 3 : ℕ) = 2 by decide,
      show ((16 &&& 15) <<< 4 ||| 7 : ℕ) = 7 by decide]
    norm_num
  · unfold nav_track
    decide
  · simp [nav_dist_nm]

/-! ## Device identity and ISO request handling

Source: `autopilotcontroller.ino`, lines 90–109 (constants), 164–214
(identity frames) and 373–381 (`handle_126208_request`).  Functions
that only transmit are modelled as returning the logical N2K messages
(PGN, priority, full payload) they send. -/

/-- A logical N2K message: PGN, priority and full payload bytes. -/
structure N2kMsg where
  pgn : ℕ
  prio : ℕ
  data : List ℕ
deriving DecidableEq

def SA : ℕ := 33

def N2K_MFG : ℕ := 1851

def N2K_IND_GR : ℕ := 4

def N2K_DEV_CLASS : ℕ := 40

def N2K_FUNC : ℕ := 135

def N2K_FUNC_INST : ℕ := 0

def N2K_DEV_INST : ℕ := 0

def N2K_UNIQUE : ℕ := 0x37AC5

/-- `buildNAME()`: packs the 64-bit device NAME
(`N2K_AAC = true` contributes the top bit). -/
def buildNAME : ℕ :=
  ((N2K_UNIQUE &&& 0x1FFFFF) <<< 0) |||
  ((N2K_MFG &&& 0x07FF) <<< 21) |||
  ((N2K_DEV_INST &&& 0x07) <<< 32) |||
  ((N2K_FUNC_INST &&& 0x1F) <<< 35) |||
  ((N2K_FUNC &&& 0xFF) <<< 40) |||
  (0x1 <<< 48) |||
  ((N2K_DEV_CLASS &&& 0x7F) <<< 49) |||
  (0x0 <<< 56) |||
  ((N2K_IND_GR &&& 0x07) <<< 60) |||
  (1 <<< 63)

/-- `send_60928_AddressClaim()`: the NAME serialised as 8 little-endian
bytes, single frame, priority 6. -/
def send_60928_AddressClaim : N2kMsg :=
  ⟨60928, 6, (List.range 8).map fun i => (buildNAME >>> (8 * i)) &&& 0xFF⟩

/-- ASCII bytes of a string constant. -/
def strBytes (s : String) : List ℕ := s.toList.map Char.toNat

/-- `pad32`: `memset(dst,0,32); memcpy(dst, src, strnlen(src,32))`. -/
def pad32 (s : String) : List ℕ :=
  (strBytes s).take 32 ++ List.replicate (32 - (strBytes s).length) 0

/-- `send_126996_Product()` payload: version, product code, four 32-byte
string fields, certification level and load equivalency. -/
def productData : List ℕ :=
  [1301 &&& 0xFF, (1301 >>> 8) &&& 0xFF, 20001 &&& 0xFF, (20001 >>> 8) &&& 0xFF]
    ++ pad32 "E70010" ++ pad32 "v1.0.0" ++ pad32 "Raymarine AP (emu)"
    ++ pad32 "RM-EMU-001" ++ [1, 3]

def send_126996_Product : N2kMsg := ⟨126996, 6, productData⟩

def rm_mfg_word_only : ℕ := 1851 &&& 0x07FF

/-- `deg_to_rad1e4_u16`: normalises the heading into [0,360), converts to
radians ×10⁴ and clamps into a `uint16_t`. -/
def deg_to_rad1e4_u16 (deg : ℚ) : ℕ :=
  let d := norm360 deg
  let rad := d * qpi / 180
  let v := (roundq (rad * 10000)).toNat
  if v > 0xFFFF then 0xFFFF else v

/-- `send_65360_locked_heading(hdg)` (callers guard against NaN; the
heading is an actual value here). -/
def send_65360_locked_heading (hdg : ℚ) : N2kMsg :=
  let comp := rm_mfg_word_only
  let ang := deg_to_rad1e4_u16 hdg
  ⟨65360, 3, [comp &&& 0xFF, (comp >>> 8) % 256, 0xFF, ang &&& 0xFF,
    (ang >>> 8) % 256, ang &&& 0xFF, (ang >>> 8) % 256, 0xFF]⟩

inductive PilotMode
  | PM_STBY
  | PM_AUTO
  | PM_WIND
  | PM_TRACK
deriving DecidableEq

export PilotMode (PM_STBY PM_AUTO PM_WIND PM_TRACK)

inductive HeadingRef
  | REF_TRUE
  | REF_MAG
deriving DecidableEq

export HeadingRef (REF_TRUE REF_MAG)

def rmModeField2 : PilotMode → ℕ
  | PM_STBY => 0x0000
  | PM_AUTO => 0x0040
  | PM_WIND => 0x0100
  | PM_TRACK => 0x0180

def rmModeDataByte : PilotMode → ℕ
  | PM_STBY => 0x00
  | PM_AUTO => 0x40
  | PM_WIND => 0x01
  | PM_TRACK => 0x80

/-- `send_65379_mode(m)`. -/
def send_65379_mode (m : PilotMode) : N2kMsg :=
  let comp := rm_mfg_word_only
  let mode2 := rmModeField2 m
  ⟨65379, 3, [comp &&& 0xFF, (comp >>> 8) % 256, mode2 &&& 0xFF,
    (mode2 >>> 8) % 256, 0xFF, 0xFF, rmModeDataByte m, 0xFF]⟩

/-- `handle_126208_request(target)`: the messages transmitted in response
to a request for PGN `target`, given the current locked heading
(`none` models `locked_hdg_deg == NaN`). -/
def handle_126208_request (locked : Option ℚ) (target : ℕ) : List N2kMsg :=
  if target = 65379 then [⟨65379, 3, List.replicate 8 0xFF⟩]
  else if target = 65360 then
    match locked with
    | some h => [send_65360_locked_heading h]
    | none => []
  else if target = 126996 then [send_126996_Product]
  else if target = 60928 then [send_60928_AddressClaim]
  else []

/-- Little-endian byte-list reassembly (inverse of the NAME
serialisation). -/
def bytesToNatLE (l : List ℕ) : ℕ := l.foldr (fun b acc => b + 256 * acc) 0

/-- C4 counterexample: a received ISO request for the supported-PGNs PGN
126464 transmits nothing — `handle_126208_request` (which `loop()` also
calls for PGN 59904 requests) has no case for 126464, so the PGN lists
are not broadcast, contradicting the claim. -/
theorem C4_iso_request_cex : handle_126208_request none 126464 = [] := rfl

/-- C4 (amended): requesting the identity-claim PGN 60928 re-broadcasts
the NAME (the payload reassembles to `buildNAME`); requesting the
product-info PGN 126996 broadcasts the model/serial/software-version
metadata; requesting the supported-PGNs PGN 126464 is ignored like any
other unlisted PGN (no message, no error) — the PGN lists are only
broadcast at startup and on periodic re-announce; additionally, a
request for the proprietary pilot-mode PGN 65379 is answered with a
single fixed frame, and a request for the proprietary locked-heading
PGN 65360 is answered with the current locked heading when one is
defined and answered with nothing while the locked heading is
undefined; every other PGN is ignored with no error. -/
theorem C4_iso_request (locked : Option ℚ) (t : ℕ)
    (ht : t ≠ 60928 ∧ t ≠ 126996 ∧ t ≠ 65379 ∧ t ≠ 65360) :
    handle_126208_request locked 60928 = [send_60928_AddressClaim] ∧
    send_60928_AddressClaim.pgn = 60928 ∧
    (send_60928_AddressClaim.data.length = 8 ∧
      bytesToNatLE send_60928_AddressClaim.data = buildNAME) ∧
    handle_126208_request locked 126996 = [send_126996_Product] ∧
    send_126996_Product.pgn = 126996 ∧
    (productData.length = 134 ∧
      (productData.drop 4).take 32 = pad32 "E70010" ∧
      (productData.drop 36).take 32 = pad32 "v1.0.0" ∧
      (productData.drop 100).take 32 = pad32 "RM-EMU-001") ∧
    handle_126208_request locked 65379 =
      [⟨65379, 3, List.replicate 8 0xFF⟩] ∧
    (∀ h : ℚ, handle_126208_request (some h) 65360 =
      [send_65360_locked_heading h] ∧
      (send_65360_locked_heading h).pgn = 65360) ∧
    handle_126208_request none 65360 = [] ∧
    handle_126208_request locked 126464 = [] ∧
    handle_126208_request locked t = [] := by
  obtain ⟨h1, h2, h3, h4⟩ := ht
  refine ⟨rfl, rfl, ⟨by decide, by decide⟩, rfl, rfl,
    ⟨by decide, by decide, by decide, by decide⟩, rfl,
    fun h => ⟨rfl, rfl⟩, rfl, rfl, ?_⟩
  simp [handle_126208_request, h1, h2, h3, h4]

theorem C4_iso_request_witness :
    ((129283 : ℕ) ≠ 60928 ∧ (129283 : ℕ) ≠ 126996 ∧ (129283 : ℕ) ≠ 65379 ∧
      (129283 : ℕ) ≠ 65360) ∧
    (handle_126208_request none 60928 = [send_60928_AddressClaim] ∧
      send_60928_AddressClaim.pgn = 60928 ∧
      (send_60928_AddressClaim.data.length = 8 ∧
        bytesToNatLE send_60928_AddressClaim.data = buildNAME) ∧
      handle_126208_request none 126996 = [send_126996_Product] ∧
      send_126996_Product.pgn = 126996 ∧
      (productData.length = 134 ∧
        (productData.drop 4).take 32 = pad32 "E70010" ∧
        (productData.drop 36).take 32 = pad32 "v1.0.0" ∧
        (productData.drop 100).take 32 = pad32 "RM-EMU-001") ∧
      handle_126208_request none 65379 =
        [⟨65379, 3, List.replicate 8 0xFF⟩] ∧
      (∀ h : ℚ, handle_126208_request (some h) 65360 =
        [send_65360_locked_heading h] ∧
        (send_65360_locked_heading h).pgn = 65360) ∧
      handle_126208_request none 65360 = [] ∧
      handle_126208_request none 126464 = [] ∧
      handle_126208_request none 129283 = []) :=
  ⟨⟨by decide, by decide, by decide, by decide⟩,
    C4_iso_request none 129283 ⟨by decide, by decide, by decide, by decide⟩⟩

/-! ## The autopilot state machine

Source: `autopilotcontroller.ino`, lines 47–62 (state), 304–328
(SeaTalk keystrokes), 382–478 (126208 command handling) and the
telemetry decoding in `loop()` (line 517). -/

/-- The mutable pilot state: mode, heading reference, locked heading
(`none` models `NAN`) and current heading from PGN 127250. -/
structure PState where
  currentMode : PilotMode
  headingRef : HeadingRef
  locked_hdg_deg : Option ℚ
  hdg_deg_now : ℚ
deriving DecidableEq

/-- The boot state set in `setup()`:
`currentMode=PM_STBY; headingRef=REF_MAG; locked_hdg_deg=NAN;` with
`hdg_deg_now = 0.0f`. -/
def init_state : PState := ⟨PM_STBY, REF_MAG, none, 0⟩

def ST_CODE_AUTO : ℕ := 0x01

def ST_CODE_STANDBY : ℕ := 0x02

def ST_CODE_PLUS1 : ℕ := 0x07

def ST_CODE_PLUS10 : ℕ := 0x08

def ST_CODE_MINUS1 : ℕ := 0x05

def ST_CODE_MINUS10 : ℕ := 0x06

def ST_SENDER_NIB : ℕ := 0x2

/-- `st_send_keystroke(code)`: the 4-byte SeaTalk 0x86 keystroke
datagram; byte 3 is `(uint8_t)~code = 255 - code` for a byte-sized
code. -/
def st_send_keystroke (code : ℕ) : List ℕ :=
  [0x86, (ST_SENDER_NIB <<< 4) ||| 0x01, code, 255 - code % 256]

/-- `st_press(code)` with the default `repeats=2`: the keystroke
datagram transmitted twice (spaced in time). -/
def st_press (code : ℕ) : List (List ℕ) :=
  [st_send_keystroke code, st_send_keystroke code]

/-- The result of processing a command: the new state, the SeaTalk
datagrams transmitted (in order) and the N2K messages transmitted. -/
structure StepOut where
  state : PState
  st : List (List ℕ)
  n2k : List N2kMsg
deriving DecidableEq

/-- The selector scan of `apply_rm_selector_or_button`: for every window
`04 04 <sel>` in the parameter bytes, decode the new mode and, when it
differs from the current mode, switch to it (heading reference forced to
magnetic), press the matching SeaTalk key twice, update the locked
heading and broadcast the proprietary mode message.  (The `did` flag of
the source only gates logging and is not modelled.) -/
def selLoop : PState → List ℕ → StepOut
  | s, x :: y :: z :: rest =>
    let step : StepOut :=
      if x = 0x04 ∧ y = 0x04 then
        let sel := z
        let nm : PilotMode :=
          if sel = 0x00 then PM_STBY
          else if sel = 0x40 then PM_AUTO
          else if sel = 0x01 then PM_WIND
          else if sel = 0x80 then PM_TRACK
          else s.currentMode
        if nm ≠ s.currentMode then
          let s1 : PState := { s with currentMode := nm, headingRef := REF_MAG }
          if nm = PM_AUTO then
            ⟨{ s1 with locked_hdg_deg := some s.hdg_deg_now },
              st_press ST_CODE_AUTO, [send_65379_mode nm]⟩
          else if nm = PM_STBY then
            ⟨{ s1 with locked_hdg_deg := none },
              st_press ST_CODE_STANDBY, [send_65379_mode nm]⟩
          else if nm = PM_TRACK then
            ⟨{ s1 with locked_hdg_deg := some s.hdg_deg_now },
              st_press ST_CODE_AUTO, [send_65379_mode nm]⟩
          else ⟨s1, [], [send_65379_mode nm]⟩
        else ⟨s, [], []⟩
      else ⟨s, [], []⟩
    let restOut := selLoop step.state (y :: z :: rest)
    ⟨restOut.state, step.st ++ restOut.st, step.n2k ++ restOut.n2k⟩
  | s, _ => ⟨s, [], []⟩

/-- The button scan of `apply_rm_selector_or_button`: for every window
starting `06 <code>` (the loop bound leaves a 3-byte window), apply the
button: mode buttons switch mode unconditionally, nudge buttons only
press keys. -/
def btnLoop : PState → List ℕ → StepOut
  | s, x :: y :: z :: rest =>
    let step : StepOut :=
      if x = 0x06 then
        let code := y
        if code = 0x00 then
          ⟨{ s with currentMode := PM_STBY, locked_hdg_deg := none },
            st_press ST_CODE_STANDBY, [send_65379_mode PM_STBY]⟩
        else if code = 0x40 then
          ⟨{ s with currentMode := PM_AUTO, locked_hdg_deg := some s.hdg_deg_now },
            st_press ST_CODE_AUTO, [send_65379_mode PM_AUTO]⟩
        else if code = 0x01 then
          ⟨{ s with currentMode := PM_WIND }, [], [send_65379_mode PM_WIND]⟩
        else if code = 0x80 then
          ⟨{ s with currentMode := PM_TRACK, locked_hdg_deg := some s.hdg_deg_now },
            st_press ST_CODE_AUTO, [send_65379_mode PM_TRACK]⟩
        else if code = 0x51 then ⟨s, st_press ST_CODE_PLUS1, []⟩
        else if code = 0x7F then ⟨s, st_press ST_CODE_MINUS1, []⟩
        else if code = 0xD1 then ⟨s, st_press ST_CODE_PLUS10, []⟩
        else if code = 0x50 then ⟨s, st_press ST_CODE_MINUS10, []⟩
        else ⟨s, [], []⟩
      else ⟨s, [], []⟩
    let restOut := btnLoop step.state (y :: z :: rest)
    ⟨restOut.state, step.st ++ restOut.st, step.n2k ++ restOut.n2k⟩
  | s, _ => ⟨s, [], []⟩

/-- `apply_rm_selector_or_button(b, n)`: the selector scan followed by
the button scan over the same bytes. -/
def apply_rm_selector_or_button (s : PState) (b : List ℕ) : StepOut :=
  let selOut := selLoop s b
  let btnOut := btnLoop selOut.state b
  ⟨btnOut.state, selOut.st ++ btnOut.st, selOut.n2k ++ btnOut.n2k⟩

/-- `gf65360_extractMagHeading`: scans for the first `0x06` byte with two
bytes after it and returns the little-endian 16-bit raw angle. -/
def gf65360_extractMagHeading : List ℕ → Option ℕ
  | x :: y :: z :: rest =>
    if x = 0x06 then some (y ||| (z <<< 8))
    else gf65360_extractMagHeading (y :: z :: rest)
  | _ => none

/-- Raw 16-bit angle to degrees: `(raw*0.0001f)*180.0f/(float)M_PI`. -/
def rawToDeg (raw : ℕ) : ℚ := ((raw : ℚ) * (1 / 10000)) * 180 / qpi

/-- `handle_126208_full(b, n)` with `n = b.length`: function code 1 is a
read request answered by `handle_126208_request`; otherwise commands
targeting the proprietary mode or locked-heading PGN run the
selector/button scan, and a locked-heading target additionally
overwrites the locked heading with the normalised extracted value. -/
def handle_126208_full (s : PState) (b : List ℕ) : StepOut :=
  if b.length < 4 then ⟨s, [], []⟩
  else
    let func := b.getD 0 0
    let target := b.getD 1 0 ||| (b.getD 2 0 <<< 8) ||| (b.getD 3 0 <<< 16)
    if func = 0x01 then ⟨s, [], handle_126208_request s.locked_hdg_deg target⟩
    else if target = 65379 ∨ target = 65360 then
      let out := apply_rm_selector_or_button s (b.drop 4)
      if target = 65360 then
        match gf65360_extractMagHeading (b.drop 4) with
        | some raw =>
          ⟨{ out.state with locked_hdg_deg := some (norm360 (rawToDeg raw)) },
            out.st, out.n2k⟩
        | none => out
      else out
    else ⟨s, [], []⟩

/-- A received event processed by the state machine: a (reassembled or
single-frame) 126208 command, or a vessel-heading telemetry update from
PGN 127250 (raw little-endian angle from bytes 1–2). -/
inductive RxEvent
  | cmd (b : List ℕ)
  | heading (raw : ℕ)

/-- One step of the state machine on a received event. -/
def stepEvent (s : PState) (e : RxEvent) : PState :=
  match e with
  | .cmd b => (handle_126208_full s b).state
  | .heading raw => { s with hdg_deg_now := rawToDeg raw }

/-- The C3 invariant: in Standby the locked heading is undefined. -/
def standby_locked_clear (s : PState) : Prop :=
  s.currentMode = PM_STBY → s.locked_hdg_deg = none

/-- A write-command (function ≠ 1) targeting the locked-heading PGN
65360 that carries an extractable heading value. -/
def isLockedHeadingWrite : RxEvent → Prop
  | .cmd b => 4 ≤ b.length ∧ b.getD 0 0 ≠ 1 ∧
      b.getD 1 0 ||| (b.getD 2 0 <<< 8) ||| (b.getD 3 0 <<< 16) = 65360 ∧
      (gf65360_extractMagHeading (b.drop 4)).isSome = true
  | .heading _ => False

theorem selLoop_pres : ∀ (b : List ℕ) (s : PState),
    standby_locked_clear s → standby_locked_clear (selLoop s b).state := by
  intro b
  induction b with
  | nil => intro s hs; simpa [selLoop] using hs
  | cons x rest ih =>
    intro s hs
    match rest with
    | [] => simpa [selLoop] using hs
    | [y] => simpa [selLoop] using hs
    | y :: z :: rest' =>
      simp only [selLoop]
      refine ih _ ?_
      by_cases hxy : x = 0x04 ∧ y = 0x04
      · rw [if_pos hxy]
        set nm := (if z = 0x00 then PM_STBY
          else if z = 0x40 then PM_AUTO
          else if z = 0x01 then PM_WIND
          else if z = 0x80 then PM_TRACK
          else s.currentMode) with hnm
        by_cases hne : nm ≠ s.currentMode
        · rw [if_pos hne]
          cases hn : nm <;> simp [hn, standby_locked_clear]
        · rw [if_neg hne]
          exact hs
      · rw [if_neg hxy]
        exact hs

theorem btnLoop_pres : ∀ (b : List ℕ) (s : PState),
    standby_locked_clear s → standby_locked_clear (btnLoop s b).state := by
  intro b
  induction b with
  | nil => intro s hs; simpa [btnLoop] using hs
  | cons x rest ih =>
    intro s hs
    match rest with
    | [] => simpa [btnLoop] using hs
    | [y] => simpa [btnLoop] using hs
    | y :: z :: rest' =>
      simp only [btnLoop]
      refine ih _ ?_
      by_cases hx : x = 0x06
      · rw [if_pos hx]
        split_ifs <;> simp_all [standby_locked_clear]
      · rw [if_neg hx]
        exact hs

theorem apply_rm_pres (s : PState) (b : List ℕ)
    (h : standby_locked_clear s) :
    standby_locked_clear (apply_rm_selector_or_button s b).state := by
  simp only [apply_rm_selector_or_button]
  exact btnLoop_pres _ _ (selLoop_pres _ _ h)

theorem stepEvent_pres (s : PState) (e : RxEvent)
    (he : ¬ isLockedHeadingWrite e) (h : standby_locked_clear s) :
    standby_locked_clear (stepEvent s e) := by
  match e with
  | .heading raw =>
    intro hm
    exact h hm
  | .cmd b =>
    simp only [stepEvent, handle_126208_full]
    split_ifs with h1 h2 h3 h4
    · exact h
    · exact h
    · -- target = 65379 or 65360, extraction branch for 65360
      cases hex : gf65360_extractMagHeading (b.drop 4) with
      | some raw =>
        exact absurd ⟨by omega, h2, h4, by simp [hex]⟩ he
      | none =>
        simp only [hex]
        exact apply_rm_pres _ _ h
    · exact apply_rm_pres _ _ h
    · exact h

/-- C3 counterexample: from the initial state, a single write-command to
the locked-heading PGN 65360 whose parameters are `06 34 12` (an
extractable heading value whose second byte is not a recognised button
code) leaves the mode in Standby but sets the locked heading, so
"Standby implies locked heading undefined" fails. -/
theorem C3_standby_locked_cex :
    (stepEvent init_state
        (.cmd [0x00, 0x50, 0xFF, 0x00, 0x06, 0x34, 0x12])).currentMode =
      PM_STBY ∧
    (stepEvent init_state
        (.cmd [0x00, 0x50, 0xFF, 0x00, 0x06, 0x34, 0x12])).locked_hdg_deg ≠
      none := by
  constructor
  · decide
  · decide

/-- C3 (amended): starting from the initial state, after any sequence of
received commands and telemetry updates *that contains no write-command
to the locked-heading PGN 65360 carrying an extractable heading value*,
whenever the mode is Standby the locked heading is undefined.  (Such a
write overwrites the locked heading without changing the mode, so it can
define the locked heading while in Standby.) -/
theorem C3_standby_locked (evs : List RxEvent)
    (h : ∀ e ∈ evs, ¬ isLockedHeadingWrite e) :
    standby_locked_clear (evs.foldl stepEvent init_state) := by
  have gen : ∀ (l : List RxEvent) (s : PState),
      (∀ e ∈ l, ¬ isLockedHeadingWrite e) →
      standby_locked_clear s → standby_locked_clear (l.foldl stepEvent s) := by
    intro l
    induction l with
    | nil => exact fun s _ hs => hs
    | cons e t iht =>
      intro s hl hs
      simp only [List.foldl_cons]
      exact iht _ (fun e' he' => hl e' (List.mem_cons_of_mem _ he'))
        (stepEvent_pres _ _ (hl e (List.mem_cons_self _ _)) hs)
  exact gen evs init_state h (fun _ => rfl)

theorem C3_standby_locked_witness :
    standby_locked_clear
      (List.foldl stepEvent init_state
        [.heading 1000, .cmd [0x00, 0x63, 0xFF, 0x00, 0x04, 0x04, 0x40],
          .cmd [0x00, 0x63, 0xFF, 0x00, 0x04, 0x04, 0x00]]) := by
  apply C3_standby_locked
  intro e he
  fin_cases he <;> simp [isLockedHeadingWrite]

/-- C5: feeding the Auto selector command (126208 write to the pilot-mode
PGN with parameters `04 04 40`) while in Standby transitions the mode to
Auto, forces the heading reference to magnetic, sets the locked heading
to the current heading, broadcasts the proprietary mode message, and
produces exactly one pair of "auto" keystroke datagrams on the SeaTalk
bus, each 4 bytes long with byte 3 the bitwise complement of byte 2. -/
theorem C5_auto_selector (s : PState) (hm : s.currentMode = PM_STBY) :
    handle_126208_full s [0x00, 0x63, 0xFF, 0x00, 0x04, 0x04, 0x40] =
      ⟨{ s with
          currentMode := PM_AUTO
          headingRef := REF_MAG
          locked_hdg_deg := some s.hdg_deg_now },
        st_press ST_CODE_AUTO, [send_65379_mode PM_AUTO]⟩ ∧
    st_press ST_CODE_AUTO =
      [st_send_keystroke ST_CODE_AUTO, st_send_keystroke ST_CODE_AUTO] ∧
    st_send_keystroke ST_CODE_AUTO = [0x86, 0x21, 0x01, 0xFE] ∧
    (st_send_keystroke ST_CODE_AUTO).length = 4 ∧
    (st_send_keystroke ST_CODE_AUTO).getD 3 0 =
      255 - (st_send_keystroke ST_CODE_AUTO).getD 2 0 % 256 := by
  refine ⟨?_, by decide, by decide, by decide, by decide⟩
  simp +decide [handle_126208_full, apply_rm_selector_or_button, selLoop,
    btnLoop, hm]

theorem C5_auto_selector_witness :
    init_state.currentMode = PM_STBY ∧
    (handle_126208_full init_state [0x00, 0x63, 0xFF, 0x00, 0x04, 0x04, 0x40] =
      ⟨{ init_state with
          currentMode := PM_AUTO
          headingRef := REF_MAG
          locked_hdg_deg := some init_state.hdg_deg_now },
        st_press ST_CODE_AUTO, [send_65379_mode PM_AUTO]⟩ ∧
      st_press ST_CODE_AUTO =
        [st_send_keystroke ST_CODE_AUTO, st_send_keystroke ST_CODE_AUTO] ∧
      st_send_keystroke ST_CODE_AUTO = [0x86, 0x21, 0x01, 0xFE] ∧
      (st_send_keystroke ST_CODE_AUTO).length = 4 ∧
      (st_send_keystroke ST_CODE_AUTO).getD 3 0 =
        255 - (st_send_keystroke ST_CODE_AUTO).getD 2 0 % 256) :=
  ⟨rfl, C5_auto_selector init_state rfl⟩

/-- A parameter-byte window matching the selector pattern `04 04 _`. -/
def hasSelWindow : List ℕ → Prop
  | x :: y :: z :: rest => (x = 0x04 ∧ y = 0x04) ∨ hasSelWindow (y :: z :: rest)
  | _ => False

/-- A parameter-byte window `06 <code>` where `<code>` is one of the four
mode button codes. -/
def hasModeButtonWindow : List ℕ → Prop
  | x :: y :: z :: rest =>
    (x = 0x06 ∧ (y = 0x00 ∨ y = 0x40 ∨ y = 0x01 ∨ y = 0x80)) ∨
      hasModeButtonWindow (y :: z :: rest)
  | _ => False

theorem selLoop_id : ∀ (b : List ℕ) (s : PState), ¬ hasSelWindow b →
    selLoop s b = ⟨s, [], []⟩ := by
  intro b
  induction b with
  | nil => intro s _; rfl
  | cons x rest ih =>
    intro s h
    match rest with
    | [] => rfl
    | [y] => rfl
    | y :: z :: rest' =>
      have hxy : ¬ (x = 0x04 ∧ y = 0x04) := fun hc => h (Or.inl hc)
      have hrest : ¬ hasSelWindow (y :: z :: rest') := fun hc => h (Or.inr hc)
      simp only [selLoop]
      rw [if_neg hxy]
      simp [ih _ hrest]

theorem btnLoop_state_id : ∀ (b : List ℕ) (s : PState),
    ¬ hasModeButtonWindow b → (btnLoop s b).state = s := by
  intro b
  induction b with
  | nil => intro s _; rfl
  | cons x rest ih =>
    intro s h
    match rest with
    | [] => rfl
    | [y] => rfl
    | y :: z :: rest' =>
      have hrest : ¬ hasModeButtonWindow (y :: z :: rest') :=
        fun hc => h (Or.inr hc)
      simp only [btnLoop]
      by_cases hx : x = 0x06
      · have hy : ¬ (y = 0x00 ∨ y = 0x40 ∨ y = 0x01 ∨ y = 0x80) :=
          fun hc => h (Or.inl ⟨hx, hc⟩)
        rw [if_pos hx]
        split_ifs with h0 h40 h1 h80 h51 h7F hD1 h50 <;>
          first
            | exact absurd (Or.inl h0) hy
            | exact absurd (Or.inr (Or.inl h40)) hy
            | exact absurd (Or.inr (Or.inr (Or.inl h1))) hy
            | exact absurd (Or.inr (Or.inr (Or.inr h80))) hy
            | exact ih _ hrest
      · rw [if_neg hx]
        exact ih _ hrest

/-- C7 counterexample: a write-command to the locked-heading PGN whose
parameters are `06 40 12` carries an explicit locked-heading value
(raw 0x1240), yet processing it from the initial (Standby) state changes
the steering mode to Auto — the heading bytes double as the `06 40`
button pattern — so "leaves the steering mode unchanged" fails. -/
theorem C7_locked_write_cex :
    gf65360_extractMagHeading
        ([0x00, 0x50, 0xFF, 0x00, 0x06, 0x40, 0x12].drop 4) = some 4672 ∧
    (handle_126208_full init_state
        [0x00, 0x50, 0xFF, 0x00, 0x06, 0x40, 0x12]).state.currentMode =
      PM_AUTO ∧
    init_state.currentMode ≠ PM_AUTO := by
  refine ⟨by decide, by decide, by decide⟩

/-- C7 (amended): processing a write-command to the locked-heading PGN
65360 that carries an explicit locked-heading value overwrites the
locked heading with that value normalised into [0°, 360°) and leaves the
rest of the state — in particular the steering mode — unchanged,
*provided* the parameter bytes contain no selector window (`04 04 _`)
and no mode-button window (`06` followed by a mode button code); such
windows additionally switch the mode. -/
theorem C7_locked_write (s : PState) (b : List ℕ) (raw : ℕ)
    (hlen : 4 ≤ b.length) (hfunc : b.getD 0 0 ≠ 1)
    (htgt : b.getD 1 0 ||| (b.getD 2 0 <<< 8) ||| (b.getD 3 0 <<< 16) = 65360)
    (hext : gf65360_extractMagHeading (b.drop 4) = some raw)
    (hsel : ¬ hasSelWindow (b.drop 4))
    (hbtn : ¬ hasModeButtonWindow (b.drop 4)) :
    (handle_126208_full s b).state =
      { s with locked_hdg_deg := some (norm360 (rawToDeg raw)) } ∧
    0 ≤ norm360 (rawToDeg raw) ∧ norm360 (rawToDeg raw) < 360 := by
  refine ⟨?_, norm360_nonneg _, norm360_lt _⟩
  have hstate : (apply_rm_selector_or_button s (b.drop 4)).state = s := by
    simp only [apply_rm_selector_or_button, selLoop_id _ _ hsel]
    exact btnLoop_state_id _ _ hbtn
  simp only [handle_126208_full]
  rw [if_neg (by omega), if_neg hfunc, htgt]
  rw [if_pos (Or.inr rfl), if_pos rfl, hext]
  simp [hstate]

theorem C7_locked_write_witness :
    (4 ≤ ([0x00, 0x50, 0xFF, 0x00, 0x06, 0x34, 0x12] : List ℕ).length) ∧
    (handle_126208_full init_state
        [0x00, 0x50, 0xFF, 0x00, 0x06, 0x34, 0x12]).state =
      { init_state with
          locked_hdg_deg := some (norm360 (rawToDeg 4660)) } ∧
    0 ≤ norm360 (rawToDeg 4660) ∧ norm360 (rawToDeg 4660) < 360 :=
  ⟨by decide,
    C7_locked_write init_state [0x00, 0x50, 0xFF, 0x00, 0x06, 0x34, 0x12]
      4660 (by decide) (by decide) (by decide) (by decide)
      (by simp [hasSelWindow]) (by simp [hasModeButtonWindow])⟩

/-! ## Fast-packet command reassembly (`FPBuf`, `feed_126208`) and the
fast-packet encoder (`n2k_send_fast`)

Source: `autopilotcontroller.ino`, lines 141–161 (`n2k_send_fast`),
366–371 (`FPBuf`, `gf_reset`) and 456–469 (`feed_126208`). -/

/-- The command reassembly state.  In the source `buf` is a fixed
120-byte array holding `filled` meaningful bytes; here `buf` is the list
of the bytes written so far. -/
structure FPBuf where
  active : Bool
  sa : ℕ
  seq : ℕ
  total : ℕ
  next : ℕ
  filled : ℕ
  buf : List ℕ
deriving DecidableEq

/-- `gf_reset()`: the default-constructed `FPBuf` (`grp = {}`), which is
also the boot state of the global `grp`. -/
def gf_reset : FPBuf := ⟨false, 0xFF, 0xFF, 0, 0, 0, []⟩

/-- `feed_126208(sa, d, n)`: one step of the command reassembler.  `d` is
the 8-byte CAN data array (reads beyond the DLC `n` read the array; a
list entry is the array byte) and the result is the new state together
with the completed command handed to `handle_126208_full`, if any.
A negative `remain` cannot occur in reachable states (see `invFP`); its
`Int.toNat` image models the C `int` arithmetic there. -/
def feed_126208 (g : FPBuf) (sa : ℕ) (d : List ℕ) (n : ℕ) :
    FPBuf × Option (List ℕ) :=
  if n < 2 then (g, none)
  else
    let fi := d.getD 0 0 &&& 0x1F
    let seq := (d.getD 0 0 >>> 5) &&& 0x07
    if fi = 0 then
      let total := d.getD 1 0
      if 120 < total then (gf_reset, none)
      else
        let takeN := min 6 total
        let buf := (d.drop 2).take takeN
        if total ≤ takeN then (gf_reset, some (buf.take total))
        else
          ({ active := true, sa := sa, seq := seq, total := total, next := 1,
             filled := takeN, buf := buf }, none)
    else
      if g.active = true ∧ g.sa = sa ∧ g.seq = seq ∧ fi = g.next then
        let takeN := (min 7 ((g.total : ℤ) - (g.filled : ℤ))).toNat
        let buf := g.buf ++ (d.drop 1).take takeN
        let filled := g.filled + takeN
        if g.total ≤ filled then (gf_reset, some (buf.take g.total))
        else ({ g with next := g.next + 1, filled := filled, buf := buf },
          none)
      else (gf_reset, none)

/-- Feeding a list of frames in order (each frame is its 8-byte data
array; the DLC is the array length), collecting the completed commands
that `feed_126208` delivers. -/
def runFeed : FPBuf → ℕ → List (List ℕ) → FPBuf × List (List ℕ)
  | g, _, [] => (g, [])
  | g, sa, f :: fs =>
    let r1 := feed_126208 g sa f f.length
    let r2 := runFeed r1.1 sa fs
    (r2.1, (match r1.2 with | some m => [m] | none => []) ++ r2.2)

/-- The first frame built by `n2k_send_fast`: `(seq<<5)|0`, the total
length byte, the first `min 6 len` payload bytes, `0xFF` padding. -/
def fpFirstFrame (sq : ℕ) (payload : List ℕ) : List ℕ :=
  ((sq <<< 5) ||| 0) :: payload.length % 256 ::
    (payload.take 6 ++ List.replicate (6 - payload.length) 0xFF)

/-- The continuation frames built by `n2k_send_fast`'s `while` loop: one
frame per iteration, `(seq<<5)|(idx&0x1F)` followed by the next
`min 7 remaining` payload bytes and `0xFF` padding. -/
def fpContFrames (sq ix : ℕ) (rest : List ℕ) : List (List ℕ) :=
  if h : rest = [] then []
  else
    (((sq <<< 5) ||| (ix &&& 0x1F)) ::
        (rest.take 7 ++ List.replicate (7 - rest.length) 0xFF)) ::
      fpContFrames sq (ix + 1) (rest.drop 7)
termination_by rest.length
decreasing_by
  have : 0 < rest.length := List.length_pos.mpr h
  simp only [List.length_drop]
  omega

/-- `n2k_send_fast(pgn, payload, len)` as the list of 8-byte frames in
transmission order (`sq` is the sequence id `(millis()>>5) & 0x07`). -/
def n2k_send_fast_frames (sq : ℕ) (payload : List ℕ) : List (List ℕ) :=
  fpFirstFrame sq payload :: fpContFrames sq 1 (payload.drop 6)

/-- Corrupt the `k`-th frame of a sequence by incrementing its first
byte, i.e. its 5-bit frame index, by one — so that frame's index is two
(rather than one) above its predecessor's. -/
def bumpAt : ℕ → List (List ℕ) → List (List ℕ)
  | _, [] => []
  | 0, f :: fs => (match f with | [] => [] | b :: r => (b + 1) :: r) :: fs
  | k + 1, f :: fs => f :: bumpAt k fs

/-- The reassembler's structural invariant: the fill count never exceeds
the declared total, the total never exceeds the 120-byte capacity, and
the bytes written so far are exactly the fill count. -/
def invFP (g : FPBuf) : Prop :=
  g.filled ≤ g.total ∧ g.total ≤ 120 ∧ g.buf.length = g.filled

/-- The `(offset, length)` of the `memcpy` into `grp.buf` that
`feed_126208` performs, `none` when no byte is copied. -/
def feedWrite (g : FPBuf) (sa : ℕ) (d : List ℕ) (n : ℕ) :
    Option (ℕ × ℕ) :=
  if n < 2 then none
  else
    let fi := d.getD 0 0 &&& 0x1F
    let seq := (d.getD 0 0 >>> 5) &&& 0x07
    if fi = 0 then
      let total := d.getD 1 0
      if 120 < total then none
      else some (0, min 6 total)
    else
      if g.active = true ∧ g.sa = sa ∧ g.seq = seq ∧ fi = g.next then
        some (g.filled, (min 7 ((g.total : ℤ) - (g.filled : ℤ))).toNat)
      else none

/-- C6: for every frame fed to the command reassembler (with its 8-byte
data array) from a state satisfying the structural invariant: a
completed command is delivered only with exactly the declared total
length — and the state is then reset; a continuation frame whose
sequence id, source address or frame index does not exactly match the
active assembly's expectation silently discards the assembly and
delivers nothing; and a first frame whose declared total length exceeds
the 120-byte capacity silently discards the assembly and delivers
nothing. -/
theorem C6_no_partial_delivery (g : FPBuf) (sa : ℕ) (d : List ℕ) (n : ℕ)
    (hinv : invFP g) (hd : d.length = 8) :
    (∀ m, (feed_126208 g sa d n).2 = some m →
      m.length = (if d.getD 0 0 &&& 0x1F = 0 then d.getD 1 0 else g.total) ∧
      (feed_126208 g sa d n).1 = gf_reset) ∧
    (2 ≤ n → d.getD 0 0 &&& 0x1F ≠ 0 →
      ¬(g.active = true ∧ g.sa = sa ∧
          g.seq = (d.getD 0 0 >>> 5) &&& 0x07 ∧
          d.getD 0 0 &&& 0x1F = g.next) →
      feed_126208 g sa d n = (gf_reset, none)) ∧
    (2 ≤ n → d.getD 0 0 &&& 0x1F = 0 → 120 < d.getD 1 0 →
      feed_126208 g sa d n = (gf_reset, none)) := by
  obtain ⟨hft, ht120, hbl⟩ := hinv
  simp only [feed_126208]
  by_cases h1 : n < 2
  · simp only [if_pos h1]
    exact ⟨fun m hm => by simp at hm, fun hn _ _ => absurd h1 (by omega),
      fun hn _ _ => absurd h1 (by omega)⟩
  · simp only [if_neg h1]
    by_cases h2 : d.getD 0 0 &&& 0x1F = 0
    · simp only [if_pos h2]
      by_cases h3 : 120 < d.getD 1 0
      · simp only [if_pos h3]
        exact ⟨fun m hm => by simp at hm, fun _ hfi => absurd h2 hfi,
          fun _ _ _ => by trivial⟩
      · simp only [if_neg h3]
        by_cases h4 : d.getD 1 0 ≤ min 6 (d.getD 1 0)
        · simp only [if_pos h4]
          refine ⟨fun m hm => ?_, fun _ hfi => absurd h2 hfi,
            fun _ _ h120 => absurd h120 h3⟩
          simp only [Option.some.injEq] at hm
          subst hm
          refine ⟨?_, trivial⟩
          simp only [List.length_take, List.length_drop, hd]
          omega
        · simp only [if_neg h4]
          exact ⟨fun m hm => by simp at hm, fun _ hfi => absurd h2 hfi,
            fun _ _ h120 => absurd h120 h3⟩
    · simp only [if_neg h2]
      by_cases h5 : g.active = true ∧ g.sa = sa ∧
          g.seq = (d.getD 0 0 >>> 5) &&& 0x07 ∧
          d.getD 0 0 &&& 0x1F = g.next
      · simp only [if_pos h5]
        by_cases h6 : g.total ≤
            g.filled + (min 7 ((g.total : ℤ) - (g.filled : ℤ))).toNat
        · simp only [if_pos h6]
          refine ⟨fun m hm => ?_, fun _ _ hng => absurd h5 hng,
            fun _ hfi => absurd hfi h2⟩
          simp only [Option.some.injEq] at hm
          subst hm
          refine ⟨?_, trivial⟩
          simp only [List.length_take, List.length_append, List.length_drop,
            hd, hbl]
          omega
        · simp only [if_neg h6]
          exact ⟨fun m hm => by simp at hm, fun _ _ hng => absurd h5 hng,
            fun _ hfi => absurd hfi h2⟩
      · simp only [if_neg h5]
        exact ⟨fun m hm => by simp at hm, fun _ _ _ => by trivial,
          fun _ hfi => absurd hfi h2⟩

theorem C6_no_partial_delivery_witness :
    invFP gf_reset ∧ ([0x21, 9, 1, 2, 3, 4, 5, 6] : List ℕ).length = 8 ∧
    ((∀ m, (feed_126208 gf_reset 7 [0x21, 9, 1, 2, 3, 4, 5, 6] 8).2 =
        some m →
      m.length =
        (if ([0x21, 9, 1, 2, 3, 4, 5, 6] : List ℕ).getD 0 0 &&& 0x1F = 0
         then ([0x21, 9, 1, 2, 3, 4, 5, 6] : List ℕ).getD 1 0
         else gf_reset.total) ∧
      (feed_126208 gf_reset 7 [0x21, 9, 1, 2, 3, 4, 5, 6] 8).1 = gf_reset) ∧
    (2 ≤ 8 → ([0x21, 9, 1, 2, 3, 4, 5, 6] : List ℕ).getD 0 0 &&& 0x1F ≠ 0 →
      ¬(gf_reset.active = true ∧ gf_reset.sa = 7 ∧
          gf_reset.seq =
            (([0x21, 9, 1, 2, 3, 4, 5, 6] : List ℕ).getD 0 0 >>> 5) &&& 0x07 ∧
          ([0x21, 9, 1, 2, 3, 4, 5, 6] : List ℕ).getD 0 0 &&& 0x1F =
            gf_reset.next) →
      feed_126208 gf_reset 7 [0x21, 9, 1, 2, 3, 4, 5, 6] 8 =
        (gf_reset, none)) ∧
    (2 ≤ 8 → ([0x21, 9, 1, 2, 3, 4, 5, 6] : List ℕ).getD 0 0 &&& 0x1F = 0 →
      120 < ([0x21, 9, 1, 2, 3, 4, 5, 6] : List ℕ).getD 1 0 →
      feed_126208 gf_reset 7 [0x21, 9, 1, 2, 3, 4, 5, 6] 8 =
        (gf_reset, none))) :=
  ⟨⟨by decide, by decide, by decide⟩, rfl,
    C6_no_partial_delivery gf_reset 7 [0x21, 9, 1, 2, 3, 4, 5, 6] 8
      ⟨by decide, by decide, by decide⟩ rfl⟩

/-- C10: the reassembler's writes stay inside the 120-byte buffer.  The
structural invariant (fill count ≤ declared total ≤ 120, bytes written =
fill count) holds in the boot state and is preserved by every step on an
8-byte frame; every `memcpy` performed writes `len` bytes at `off` with
`off + len ≤ 120`; a first frame writes at most 6 bytes at offset 0, a
continuation writes at most `min 7 (total − filled)` bytes at offset
`filled` without exceeding the declared total; and a first frame whose
declared length exceeds 120 is discarded before any byte is copied. -/
theorem C10_buffer_bounds :
    invFP gf_reset ∧
    (∀ g sa d n, invFP g → d.length = 8 →
      invFP (feed_126208 g sa d n).1) ∧
    (∀ g sa d n off len, invFP g → feedWrite g sa d n = some (off, len) →
      off + len ≤ 120 ∧
      (d.getD 0 0 &&& 0x1F = 0 → off = 0 ∧ len ≤ 6 ∧ len ≤ d.getD 1 0) ∧
      (d.getD 0 0 &&& 0x1F ≠ 0 →
        off = g.filled ∧ len ≤ 7 ∧ off + len ≤ g.total)) ∧
    (∀ g sa d n, 2 ≤ n → d.getD 0 0 &&& 0x1F = 0 → 120 < d.getD 1 0 →
      feedWrite g sa d n = none ∧
      feed_126208 g sa d n = (gf_reset, none)) := by
  refine ⟨⟨by decide, by decide, by decide⟩, ?_, ?_, ?_⟩
  · intro g sa d n hinv hd
    obtain ⟨hft, ht120, hbl⟩ := hinv
    simp only [feed_126208]
    by_cases h1 : n < 2
    · simp only [if_pos h1]
      exact ⟨hft, ht120, hbl⟩
    · simp only [if_neg h1]
      by_cases h2 : d.getD 0 0 &&& 0x1F = 0
      · simp only [if_pos h2]
        by_cases h3 : 120 < d.getD 1 0
        · simp only [if_pos h3]
          exact ⟨by decide, by decide, by decide⟩
        · simp only [if_neg h3]
          by_cases h4 : d.getD 1 0 ≤ min 6 (d.getD 1 0)
          · simp only [if_pos h4]
            exact ⟨by decide, by decide, by decide⟩
          · simp only [if_neg h4]
            dsimp only [invFP]
            refine ⟨by omega, by omega, ?_⟩
            simp only [List.length_take, List.length_drop, hd]
            omega
      · simp only [if_neg h2]
        by_cases h5 : g.active = true ∧ g.sa = sa ∧
            g.seq = (d.getD 0 0 >>> 5) &&& 0x07 ∧
            d.getD 0 0 &&& 0x1F = g.next
        · simp only [if_pos h5]
          by_cases h6 : g.total ≤
              g.filled + (min 7 ((g.total : ℤ) - (g.filled : ℤ))).toNat
          · simp only [if_pos h6]
            exact ⟨by decide, by decide, by decide⟩
          · simp only [if_neg h6]
            dsimp only [invFP]
            refine ⟨by omega, by omega, ?_⟩
            simp only [List.length_append, List.length_take,
              List.length_drop, hd, hbl]
            omega
        · simp only [if_neg h5]
          exact ⟨by decide, by decide, by decide⟩
  · intro g sa d n off len hinv hw
    obtain ⟨hft, ht120, hbl⟩ := hinv
    simp only [feedWrite] at hw
    by_cases h1 : n < 2
    · rw [if_pos h1] at hw
      exact absurd hw (by simp)
    · rw [if_neg h1] at hw
      by_cases h2 : d.getD 0 0 &&& 0x1F = 0
      · rw [if_pos h2] at hw
        by_cases h3 : 120 < d.getD 1 0
        · rw [if_pos h3] at hw
          exact absurd hw (by simp)
        · rw [if_neg h3] at hw
          simp only [Option.some.injEq, Prod.mk.injEq] at hw
          obtain ⟨ho, hl⟩ := hw
          subst ho hl
          exact ⟨by omega, fun _ => ⟨rfl, by omega, by omega⟩,
            fun hfi => absurd h2 hfi⟩
      · rw [if_neg h2] at hw
        by_cases h5 : g.active = true ∧ g.sa = sa ∧
            g.seq = (d.getD 0 0 >>> 5) &&& 0x07 ∧
            d.getD 0 0 &&& 0x1F = g.next
        · rw [if_pos h5] at hw
          simp only [Option.some.injEq, Prod.mk.injEq] at hw
          obtain ⟨ho, hl⟩ := hw
          subst ho hl
          refine ⟨by omega, fun hfi => absurd hfi h2,
            fun _ => ⟨rfl, by omega, by omega⟩⟩
        · rw [if_neg h5] at hw
          exact absurd hw (by simp)
  · intro g sa d n hn hfi h120
    constructor
    · simp only [feedWrite]
      rw [if_neg (by omega), if_pos hfi, if_pos h120]
    · simp only [feed_126208]
      rw [if_neg (by omega), if_pos hfi, if_pos h120]

theorem C10_buffer_bounds_witness :
    invFP gf_reset ∧
    invFP (feed_126208 gf_reset 7 [0x21, 9, 1, 2, 3, 4, 5, 6] 8).1 ∧
    (∀ off len,
      feedWrite gf_reset 7 [0x00, 9, 1, 2, 3, 4, 5, 6] 8 = some (off, len) →
      off + len ≤ 120) ∧
    feedWrite gf_reset 7 [0x00, 200, 1, 2, 3, 4, 5, 6] 8 = none :=
  ⟨C10_buffer_bounds.1,
    C10_buffer_bounds.2.1 gf_reset 7 [0x21, 9, 1, 2, 3, 4, 5, 6] 8
      C10_buffer_bounds.1 rfl,
    fun off len hw =>
      (C10_buffer_bounds.2.2.1 gf_reset 7 [0x00, 9, 1, 2, 3, 4, 5, 6] 8
        off len C10_buffer_bounds.1 hw).1,
    (C10_buffer_bounds.2.2.2 gf_reset 7 [0x00, 200, 1, 2, 3, 4, 5, 6] 8
      (by norm_num) (by decide) (by decide)).1⟩

theorem lor_add5 (a b : ℕ) (ha : a % 32 = 0) (hb : b < 32) :
    a ||| b = a + b :=
  lor_add a b 5 (by norm_num; exact ha) (by norm_num; exact hb)

/-- The first byte of a continuation frame decodes back to the sequence
and the index. -/
theorem cont_head_eq (sq ix : ℕ) (hix : ix ≤ 31) :
    (sq <<< 5) ||| (ix &&& 0x1F) = sq * 32 + ix := by
  rw [shl5, and31, Nat.mod_eq_of_lt (by omega),
    lor_add5 _ _ (Nat.mul_mod_left sq 32) (by omega)]

theorem first_head_eq (sq : ℕ) : (sq <<< 5) ||| 0 = sq * 32 := by
  simp [shl5]

theorem fpFirstFrame_length (sq : ℕ) (payload : List ℕ) :
    (fpFirstFrame sq payload).length = 8 := by
  simp only [fpFirstFrame, List.length_cons, List.length_append,
    List.length_take, List.length_replicate]
  omega

theorem fpContFrames_frame_length (sq : ℕ) : ∀ (N : ℕ) (rest : List ℕ)
    (ix : ℕ), rest.length ≤ N →
    ∀ f ∈ fpContFrames sq ix rest, f.length = 8 := by
  intro N
  induction N with
  | zero =>
    intro rest ix hlen f hf
    have : rest = [] := List.eq_nil_of_length_eq_zero (by omega)
    subst this
    rw [fpContFrames] at hf
    simp at hf
  | succ N ih =>
    intro rest ix hlen f hf
    by_cases hne : rest = []
    · subst hne
      rw [fpContFrames] at hf
      simp at hf
    · rw [fpContFrames, dif_neg hne] at hf
      have hpos : 0 < rest.length := List.length_pos.mpr hne
      rcases List.mem_cons.mp hf with rfl | hf'
      · simp only [List.length_cons, List.length_append, List.length_take,
          List.length_replicate]
        omega
      · exact ih (rest.drop 7) (ix + 1)
          (by simp only [List.length_drop]; omega) f hf'

/-- Every continuation frame of the encoder carries a non-zero 5-bit
frame index when the indices stay below 32. -/
theorem fpContFrames_fi_ne (sq : ℕ) : ∀ (N : ℕ) (rest : List ℕ) (ix : ℕ),
    rest.length ≤ N → 1 ≤ ix → ix + (rest.length + 6) / 7 ≤ 32 →
    ∀ f ∈ fpContFrames sq ix rest, f.getD 0 0 &&& 0x1F ≠ 0 := by
  intro N
  induction N with
  | zero =>
    intro rest ix hlen _ _ f hf
    have : rest = [] := List.eq_nil_of_length_eq_zero (by omega)
    subst this
    rw [fpContFrames] at hf
    simp at hf
  | succ N ih =>
    intro rest ix hlen hix1 hix32 f hf
    by_cases hne : rest = []
    · subst hne
      rw [fpContFrames] at hf
      simp at hf
    · rw [fpContFrames, dif_neg hne] at hf
      have hpos : 0 < rest.length := List.length_pos.mpr hne
      have hix31 : ix ≤ 31 := by omega
      rcases List.mem_cons.mp hf with rfl | hf'
      · simp only [List.getD_cons_zero]
        rw [cont_head_eq sq ix hix31, and31]
        omega
      · refine ih (rest.drop 7) (ix + 1)
          (by simp only [List.length_drop]; omega) (by omega) ?_ f hf'
        simp only [List.length_drop]
        omega

/-- From the reset state, frames whose 5-bit index field is non-zero are
all discarded: nothing is delivered and the state stays reset. -/
theorem runFeed_inactive (a : ℕ) : ∀ frames : List (List ℕ),
    (∀ f ∈ frames, f.getD 0 0 &&& 0x1F ≠ 0) →
    runFeed gf_reset a frames = (gf_reset, []) := by
  intro frames
  induction frames with
  | nil => intro _; rfl
  | cons f fs ih =>
    intro h
    have hf : feed_126208 gf_reset a f f.length = (gf_reset, none) := by
      simp only [feed_126208]
      by_cases h1 : f.length < 2
      · rw [if_pos h1]
      · rw [if_neg h1, if_neg (h f (List.mem_cons_self _ _)),
          if_neg (by simp [gf_reset])]
    simp only [runFeed, hf]
    rw [ih (fun g hg => h g (List.mem_cons_of_mem _ hg))]
    simp

/-- Feeding one well-formed continuation frame to a matching assembly:
either it completes the command (when at most 7 bytes remain) or it
advances the assembly by 7 bytes. -/
theorem feed_cont_frame (a sq L ix : ℕ) (buf rest : List ℕ)
    (hsq : sq < 8) (hix1 : 1 ≤ ix) (hix31 : ix ≤ 31)
    (hne : rest ≠ []) (hbuf : buf.length + rest.length = L) :
    feed_126208 ⟨true, a, sq, L, ix, buf.length, buf⟩ a
        (((sq <<< 5) ||| (ix &&& 0x1F)) ::
          (rest.take 7 ++ List.replicate (7 - rest.length) 0xFF)) 8 =
      if rest.length ≤ 7 then (gf_reset, some (buf ++ rest))
      else (⟨true, a, sq, L, ix + 1, buf.length + 7, buf ++ rest.take 7⟩,
        none) := by
  have hpos : 0 < rest.length := List.length_pos.mpr hne
  rw [cont_head_eq sq ix hix31]
  simp only [feed_126208, List.getD_cons_zero, and31, and7, shr5]
  rw [if_neg (by omega : ¬ (8 : ℕ) < 2),
    if_neg (by omega : ¬ (sq * 32 + ix) % 32 = 0),
    if_pos (⟨trivial, trivial, by omega, by omega⟩ :
      True ∧ True ∧ sq = (sq * 32 + ix) / 32 % 8 ∧
        (sq * 32 + ix) % 32 = ix)]
  simp only [List.drop_succ_cons, List.drop_zero]
  by_cases hle : rest.length ≤ 7
  · rw [if_pos hle]
    have htak : (min 7 ((L : ℤ) - (buf.length : ℤ))).toNat = rest.length := by
      omega
    rw [htak, if_pos (by omega : L ≤ buf.length + rest.length)]
    have hdata :
        (rest.take 7 ++ List.replicate (7 - rest.length) 0xFF).take
          rest.length = rest := by
      rw [List.take_append_of_le_length
        (by simp only [List.length_take]; omega)]
      rw [List.take_take]
      have : min rest.length 7 = rest.length := by omega
      rw [this, List.take_length]
    rw [hdata,
      List.take_of_length_le (by simp only [List.length_append]; omega)]
  · rw [if_neg hle]
    have htak : (min 7 ((L : ℤ) - (buf.length : ℤ))).toNat = 7 := by omega
    rw [htak, if_neg (by omega : ¬ L ≤ buf.length + 7)]
    have hpad : 7 - rest.length = 0 := by omega
    rw [hpad]
    simp only [List.replicate_zero, List.append_nil, List.take_take]
    norm_num

/-- Feeding the encoder's continuation frames to a matching assembly
delivers exactly the assembled command and resets the state. -/
theorem runFeed_conts (a sq : ℕ) (hsq : sq < 8) : ∀ (N : ℕ)
    (rest : List ℕ) (ix : ℕ) (buf : List ℕ) (L : ℕ),
    rest.length ≤ N → rest ≠ [] → 1 ≤ ix →
    ix + (rest.length + 6) / 7 ≤ 32 →
    buf.length + rest.length = L → L ≤ 120 →
    runFeed ⟨true, a, sq, L, ix, buf.length, buf⟩ a
        (fpContFrames sq ix rest) = (gf_reset, [buf ++ rest]) := by
  intro N
  induction N with
  | zero =>
    intro rest ix buf L hlen hne _ _ _ _
    exact absurd (List.eq_nil_of_length_eq_zero (by omega)) hne
  | succ N ih =>
    intro rest ix buf L hlen hne hix1 hix32 hbuf hL
    have hpos : 0 < rest.length := List.length_pos.mpr hne
    have hix31 : ix ≤ 31 := by omega
    rw [fpContFrames, dif_neg hne]
    simp only [runFeed]
    have hflen : (((sq <<< 5) ||| (ix &&& 0x1F)) ::
        (rest.take 7 ++ List.replicate (7 - rest.length) 0xFF)).length = 8 := by
      simp only [List.length_cons, List.length_append, List.length_take,
        List.length_replicate]
      omega
    rw [hflen, feed_cont_frame a sq L ix buf rest hsq hix1 hix31 hne hbuf]
    by_cases hle : rest.length ≤ 7
    · rw [if_pos hle]
      have hdrop : rest.drop 7 = [] := List.drop_eq_nil_of_le (by omega)
      rw [hdrop, fpContFrames]
      simp [runFeed]
    · rw [if_neg hle]
      have hlen7 : (buf ++ rest.take 7).length = buf.length + 7 := by
        simp only [List.length_append, List.length_take]
        omega
      have hrec := ih (rest.drop 7) (ix + 1) (buf ++ rest.take 7) L
        (by simp only [List.length_drop]; omega)
        (by
          apply List.length_pos.mp
          simp only [List.length_drop]
          omega)
        (by omega)
        (by simp only [List.length_drop]; omega)
        (by simp only [List.length_drop, hlen7]; omega)
        hL
      rw [hlen7] at hrec
      rw [hrec]
      simp [List.take_append_drop]

/-- Feeding the encoder's first frame to the reset state: a payload of
at most 6 bytes completes immediately, a longer one opens an assembly
holding its first 6 bytes. -/
theorem feed_first (a sq : ℕ) (hsq : sq < 8) (P : List ℕ)
    (hL : P.length ≤ 120) :
    feed_126208 gf_reset a (fpFirstFrame sq P) 8 =
      if P.length ≤ 6 then (gf_reset, some P)
      else (⟨true, a, sq, P.length, 1, 6, P.take 6⟩, none) := by
  rw [fpFirstFrame, first_head_eq]
  simp only [feed_126208, List.getD_cons_zero, List.getD_cons_succ,
    and31, and7, shr5, List.drop_succ_cons, List.drop_zero]
  rw [if_neg (by omega : ¬ (8 : ℕ) < 2),
    if_pos (by omega : (sq * 32) % 32 = 0)]
  have hlen : P.length % 256 = P.length := Nat.mod_eq_of_lt (by omega)
  rw [hlen, if_neg (by omega : ¬ 120 < P.length)]
  by_cases h6 : P.length ≤ 6
  · rw [if_pos h6, if_pos (by omega : P.length ≤ min 6 P.length)]
    rw [List.take_of_length_le h6,
      show min 6 P.length = P.length from by omega,
      List.take_append_of_le_length (le_refl _),
      List.take_length, List.take_length]
  · rw [if_neg h6, if_neg (by omega : ¬ P.length ≤ min 6 P.length)]
    rw [show min 6 P.length = 6 from by omega,
      show 6 - P.length = 0 from by omega,
      show (sq * 32) / 32 % 8 = sq from by omega]
    simp only [List.replicate_zero, List.append_nil, List.take_take]
    norm_num

/-- Round trip through the fast-packet encoder and the command
reassembler: any payload of at most 120 bytes is delivered (exactly
once) unchanged. -/
theorem runFeed_roundtrip (a sq : ℕ) (hsq : sq < 8) (P : List ℕ)
    (hL : P.length ≤ 120) :
    runFeed gf_reset a (n2k_send_fast_frames sq P) = (gf_reset, [P]) := by
  rw [n2k_send_fast_frames]
  simp only [runFeed]
  rw [fpFirstFrame_length, feed_first a sq hsq P hL]
  by_cases h6 : P.length ≤ 6
  · rw [if_pos h6]
    have hdrop : P.drop 6 = [] := List.drop_eq_nil_of_le (by omega)
    rw [hdrop, fpContFrames]
    simp [runFeed]
  · rw [if_neg h6]
    have h6' : (P.take 6).length = 6 := by
      simp only [List.length_take]
      omega
    have hrec := runFeed_conts a sq hsq (P.drop 6).length (P.drop 6) 1
      (P.take 6) P.length (le_refl _)
      (by
        apply List.length_pos.mp
        simp only [List.length_drop]
        omega)
      (by omega)
      (by simp only [List.length_drop]; omega)
      (by simp only [List.length_drop, h6']; omega)
      hL
    rw [h6'] at hrec
    rw [hrec]
    simp [List.take_append_drop]

/-- If one continuation frame's index is incremented by 2 instead of 1
(modelled by bumping that frame's first byte), the assembly is discarded
at that frame and no message is ever delivered. -/
theorem runFeed_conts_bump (a sq : ℕ) (hsq : sq < 8) : ∀ (N : ℕ)
    (rest : List ℕ) (ix : ℕ) (buf : List ℕ) (L j : ℕ),
    rest.length ≤ N → rest ≠ [] → 1 ≤ ix →
    ix + (rest.length + 6) / 7 ≤ 31 →
    buf.length + rest.length = L → L ≤ 120 →
    j < (rest.length + 6) / 7 →
    (runFeed ⟨true, a, sq, L, ix, buf.length, buf⟩ a
        (bumpAt j (fpContFrames sq ix rest))).2 = [] := by
  intro N
  induction N with
  | zero =>
    intro rest ix buf L j hlen hne _ _ _ _ _
    exact absurd (List.eq_nil_of_length_eq_zero (by omega)) hne
  | succ N ih =>
    intro rest ix buf L j hlen hne hix1 hix31 hbuf hL hj
    have hpos : 0 < rest.length := List.length_pos.mpr hne
    have hchunk : 1 ≤ (rest.length + 6) / 7 := by omega
    have hix30 : ix ≤ 30 := by omega
    rw [fpContFrames, dif_neg hne]
    cases j with
    | zero =>
      simp only [bumpAt, runFeed]
      rw [cont_head_eq sq ix (by omega)]
      have hfeed : feed_126208 ⟨true, a, sq, L, ix, buf.length, buf⟩ a
          ((sq * 32 + ix + 1) ::
            (rest.take 7 ++ List.replicate (7 - rest.length) 0xFF))
          ((sq * 32 + ix + 1) ::
            (rest.take 7 ++ List.replicate (7 - rest.length) 0xFF)).length =
          (gf_reset, none) := by
        have hflen : ((sq * 32 + ix + 1) ::
            (rest.take 7 ++ List.replicate (7 - rest.length) 0xFF)).length =
            8 := by
          simp only [List.length_cons, List.length_append, List.length_take,
            List.length_replicate]
          omega
        rw [hflen]
        simp only [feed_126208, List.getD_cons_zero, and31, and7, shr5]
        rw [if_neg (by omega : ¬ (8 : ℕ) < 2),
          if_neg (by omega : ¬ (sq * 32 + ix + 1) % 32 = 0),
          if_neg ?_]
        rintro ⟨-, -, -, h⟩
        omega
      rw [hfeed]
      rw [runFeed_inactive a _ (fpContFrames_fi_ne sq (rest.drop 7).length
        (rest.drop 7) (ix + 1) (le_refl _) (by omega) ?_)]
      · simp
      · simp only [List.length_drop]
        omega
    | succ j' =>
      simp only [bumpAt, runFeed]
      have hflen : (((sq <<< 5) ||| (ix &&& 0x1F)) ::
          (rest.take 7 ++ List.replicate (7 - rest.length) 0xFF)).length =
          8 := by
        simp only [List.length_cons, List.length_append, List.length_take,
          List.length_replicate]
        omega
      rw [hflen, feed_cont_frame a sq L ix buf rest hsq hix1 (by omega) hne
        hbuf]
      have hgt : ¬ rest.length ≤ 7 := by omega
      rw [if_neg hgt]
      have hlen7 : (buf ++ rest.take 7).length = buf.length + 7 := by
        simp only [List.length_append, List.length_take]
        omega
      have hrec := ih (rest.drop 7) (ix + 1) (buf ++ rest.take 7) L j'
        (by simp only [List.length_drop]; omega)
        (by
          apply List.length_pos.mp
          simp only [List.length_drop]
          omega)
        (by omega)
        (by simp only [List.length_drop]; omega)
        (by simp only [List.length_drop, hlen7]; omega)
        hL
        (by simp only [List.length_drop]; omega)
      rw [hlen7] at hrec
      simp [hrec]

/-- A 223-byte payload exceeds the reassembler's 120-byte capacity: the
first frame is discarded and every continuation frame has a non-zero
index, so nothing is ever delivered. -/
theorem runFeed_223 (a sq : ℕ) (P : List ℕ)
    (hL : P.length = 223) :
    runFeed gf_reset a (n2k_send_fast_frames sq P) = (gf_reset, []) := by
  rw [n2k_send_fast_frames]
  simp only [runFeed]
  have hfirst : feed_126208 gf_reset a (fpFirstFrame sq P)
      (fpFirstFrame sq P).length = (gf_reset, none) := by
    rw [fpFirstFrame_length, fpFirstFrame, first_head_eq]
    simp only [feed_126208, List.getD_cons_zero, List.getD_cons_succ,
      and31, and7, shr5]
    rw [if_neg (by omega : ¬ (8 : ℕ) < 2),
      if_pos (by omega : (sq * 32) % 32 = 0),
      if_pos (by rw [hL]; norm_num : (120 : ℕ) < P.length % 256)]
  rw [hfirst]
  rw [runFeed_inactive a _ (fpContFrames_fi_ne sq (P.drop 6).length
    (P.drop 6) 1 (le_refl _) (by omega) ?_)]
  · simp
  · simp only [List.length_drop, hL]
    norm_num

/-- C1 counterexample: a 223-byte payload does not survive the
encode/reassemble round trip — its declared length exceeds the 120-byte
`FPBuf` capacity, so the reassembler delivers nothing at all. -/
theorem C1_fast_packet_cex :
    (runFeed gf_reset 33 (n2k_send_fast_frames 0 (List.replicate 223 7))).2 ≠
      [List.replicate 223 7] := by
  rw [runFeed_223 33 0 (List.replicate 223 7) (by simp)]
  simp

/-- C1 (amended): for every payload of length 9 or 50, feeding the
frames produced by `n2k_send_fast` in order to `feed_126208` (driving
the `FPBuf` assembly) delivers exactly the original payload, and any
such frame sequence in which one continuation frame's index is
incremented by 2 instead of 1 delivers no reassembled message; a
payload of length 223, however, exceeds the reassembler's 120-byte
buffer and is silently discarded — the round trip delivers nothing. -/
theorem C1_fast_packet (a sq : ℕ) (P : List ℕ) (k : ℕ) (hsq : sq < 8) :
    ((P.length = 9 ∨ P.length = 50) →
      (runFeed gf_reset a (n2k_send_fast_frames sq P)).2 = [P] ∧
      (1 ≤ k → k ≤ P.length / 7 →
        (runFeed gf_reset a
          (bumpAt k (n2k_send_fast_frames sq P))).2 = [])) ∧
    (P.length = 223 →
      (runFeed gf_reset a (n2k_send_fast_frames sq P)).2 = []) := by
  constructor
  · intro hlen
    constructor
    · rw [runFeed_roundtrip a sq hsq P (by rcases hlen with h | h <;> omega)]
    · intro hk1 hk7
      obtain ⟨k', rfl⟩ : ∃ k', k = k' + 1 := ⟨k - 1, by omega⟩
      rw [n2k_send_fast_frames]
      simp only [bumpAt, runFeed]
      rw [fpFirstFrame_length,
        feed_first a sq hsq P (by rcases hlen with h | h <;> omega)]
      have h6 : ¬ P.length ≤ 6 := by rcases hlen with h | h <;> omega
      rw [if_neg h6]
      have h6' : (P.take 6).length = 6 := by
        simp only [List.length_take]
        rcases hlen with h | h <;> omega
      have hrec := runFeed_conts_bump a sq hsq (P.drop 6).length (P.drop 6)
        1 (P.take 6) P.length k' (le_refl _)
        (by
          apply List.length_pos.mp
          simp only [List.length_drop]
          rcases hlen with h | h <;> omega)
        (by omega)
        (by
          simp only [List.length_drop]
          rcases hlen with h | h <;> (rw [h]; norm_num))
        (by
          simp only [List.length_drop, h6']
          rcases hlen with h | h <;> omega)
        (by rcases hlen with h | h <;> omega)
        (by
          simp only [List.length_drop]
          rcases hlen with h | h <;> (rw [h] at hk7 ⊢; omega))
      rw [h6'] at hrec
      simp [hrec]
  · intro hlen
    rw [runFeed_223 a sq P hlen]

theorem C1_fast_packet_witness :
    (1 : ℕ) < 8 ∧
    ((((List.replicate 50 3 : List ℕ).length = 9 ∨
        (List.replicate 50 3 : List ℕ).length = 50) →
      (runFeed gf_reset 33
          (n2k_send_fast_frames 1 (List.replicate 50 3))).2 =
        [List.replicate 50 3] ∧
      (1 ≤ 1 → 1 ≤ (List.replicate 50 3 : List ℕ).length / 7 →
        (runFeed gf_reset 33
          (bumpAt 1 (n2k_send_fast_frames 1 (List.replicate 50 3)))).2 =
          [])) ∧
    ((List.replicate 50 3 : List ℕ).length = 223 →
      (runFeed gf_reset 33
          (n2k_send_fast_frames 1 (List.replicate 50 3))).2 = [])) :=
  ⟨by norm_num, C1_fast_packet 33 1 (List.replicate 50 3) 1 (by norm_num)⟩

end Autopilot
